import Mathlib

/-!
Verification development for the Luma cart / product-detail blocks
(`blocks/cart/cart.js` and `blocks/product-detail/product-detail.js`).

The JavaScript code is shallowly embedded: JS numbers that can become `NaN`
are modelled by `JSNum` (an `Int` or `nan`), possibly-`undefined` string
fields by `Option String` with JS truthiness (`undefined`/`null`/`""` are
falsy), the shared data-layer cart object by `CartState`, and the DOM /
store side effects of a mutation handler by the explicit `OpResult` record
(which cart object was written back, whether the item list was re-rendered
and whether the totals display was updated).
-/

namespace Luma

/-- JS number restricted to the values these handlers produce: an integer
or `NaN` (`parseInt` of a non-numeric string). -/
inductive JSNum where
  | nan : JSNum
  | num : Int → JSNum
deriving DecidableEq, Repr

/-- JS addition on `JSNum`: `NaN` propagates. -/
def JSNum.add : JSNum → JSNum → JSNum
  | .num a, .num b => .num (a + b)
  | _, _ => .nan

/-- JS multiplication on `JSNum`: `NaN` propagates. -/
def JSNum.mul : JSNum → JSNum → JSNum
  | .num a, .num b => .num (a * b)
  | _, _ => .nan

/-- JS comparison `x < k` for an integer bound `k`: any comparison with
`NaN` is false. -/
def JSNum.ltInt : JSNum → Int → Bool
  | .nan, _ => false
  | .num a, b => a < b

/-- JS truthiness of a number: `0` and `NaN` are falsy. -/
def JSNum.truthy : JSNum → Bool
  | .nan => false
  | .num n => n != 0

/-- JS truthiness of a possibly-`undefined` string: `undefined` and `""`
are falsy. -/
def strTruthy : Option String → Bool
  | none => false
  | some s => s != ""

/-- JS `a || b` on possibly-`undefined` strings: the first truthy operand,
else the last operand. -/
def jsOrS (a b : Option String) : Option String :=
  if strTruthy a then a else b

/-- JS `a || b` where the fallback `b` is a definite value. -/
def jsOrSD (a : Option String) (b : String) : String :=
  if strTruthy a then a.getD b else b

/-- JS whitespace accepted by `parseInt` before the number. -/
def jsWhitespace (c : Char) : Bool :=
  c = ' ' || c = '\t' || c = '\n' || c = '\r' || c = '\x0b' || c = '\x0c'

/-- `s.trim()`: strip leading and trailing whitespace. -/
def jsTrim (s : String) : String :=
  String.mk (((s.data.dropWhile Char.isWhitespace).reverse.dropWhile
    Char.isWhitespace).reverse)

/-- Decimal value of a digit string. -/
def digitsToNat (ds : List Char) : Nat :=
  ds.foldl (fun acc c => acc * 10 + (c.toNat - 48)) 0

/-- `parseInt(s, 10)`: skip leading whitespace, optional sign, then the
longest leading run of decimal digits; `NaN` when no digit is found. -/
def parseIntJS (s : String) : JSNum :=
  let cs := s.data.dropWhile jsWhitespace
  let signed : Int × List Char :=
    match cs with
    | '-' :: t => (-1, t)
    | '+' :: t => (1, t)
    | _ => (1, cs)
  let ds := signed.2.takeWhile Char.isDigit
  if ds.isEmpty then .nan else .num (signed.1 * (digitsToNat ds : Int))

/-- Argument passed to `updateQuantity`: either a string (the quantity
input field's value) or a number; `parseInt` stringifies a number argument,
which for an integer parses back to itself. -/
inductive QtyInput where
  | str : String → QtyInput
  | num : JSNum → QtyInput

/-- Result of `parseInt(newQuantity, 10)` on a `QtyInput`. -/
def parseQty : QtyInput → JSNum
  | .str s => parseIntJS s
  | .num (.num n) => .num n
  | .num .nan => .nan

/-- A cart line item as stored under `cart.products[id]`. -/
structure LineItem where
  id : Option String
  name : Option String
  image : Option String
  category : Option String
  quantity : JSNum
  price : JSNum
  subTotal : JSNum
  total : JSNum
deriving DecidableEq, Repr

/-- The shared `cart` object of the data layer. Its `products` mapping is
modelled as an association list in JS-object insertion order. -/
structure CartState where
  productCount : JSNum
  products : List (String × LineItem)
  subTotal : JSNum
  total : JSNum
deriving DecidableEq, Repr

/-- The default cart used when the data layer has no `cart` entry yet. -/
def emptyCart : CartState :=
  { productCount := .num 0, products := [], subTotal := .num 0, total := .num 0 }

/-- Lookup `products[k]` in the association list. -/
def findItem : List (String × LineItem) → String → Option LineItem
  | [], _ => none
  | p :: t, k => if p.1 = k then some p.2 else findItem t k

/-- JS `delete products[k]`: the entry disappears, the order of the other
entries is preserved. -/
def eraseItem (ps : List (String × LineItem)) (k : String) : List (String × LineItem) :=
  ps.filter (fun p => p.1 ≠ k)

/-- In-place field update of `products[k]`. -/
def setItem (ps : List (String × LineItem)) (k : String) (f : LineItem → LineItem) :
    List (String × LineItem) :=
  ps.map (fun p => if p.1 = k then (p.1, f p.2) else p)

/-- `Object.values(products).reduce((sum, p) => sum + f(p), 0)`. -/
def sumBy (f : LineItem → JSNum) (ps : List (String × LineItem)) : JSNum :=
  ps.foldl (fun acc p => acc.add (f p.2)) (.num 0)

/-- The "Recalculate totals" block shared by both cart mutation handlers:
`productCount`, `subTotal` and `total` recomputed from the given products
mapping (`total = subTotal`). -/
def recomputedCart (products : List (String × LineItem)) : CartState :=
  { productCount := sumBy (·.quantity) products
    products := products
    subTotal := sumBy (·.subTotal) products
    total := sumBy (·.subTotal) products }

/-- The line-item overwrite performed by `updateQuantity` on the found
item: new quantity, `subTotal = quantity * price`, `total = subTotal`. -/
def qtyUpdatedItem (quantity : JSNum) (item : LineItem) : LineItem :=
  { item with
      quantity := quantity
      subTotal := quantity.mul item.price
      total := quantity.mul item.price }

/-- A write to the shared data layer performed by a cart mutation handler;
both cart call sites pass `merge = false` explicitly. -/
structure CartWrite where
  cart : CartState
  merge : Bool
deriving DecidableEq, Repr

/-- Observable outcome of a cart mutation handler: the local cart object
after the handler ran, the data-layer write it performed (if any), and
which display refreshes it triggered. -/
structure OpResult where
  cart : CartState
  storeWrite : Option CartWrite
  renderedItems : Bool
  updatedTotals : Bool
deriving DecidableEq, Repr

namespace Cart

/-- `removeFromCart(productId, block)` from `blocks/cart/cart.js`: reads the
cart (defaulting to the empty cart), and if the line item exists, deletes
it, recomputes `productCount`/`subTotal`/`total` from the remaining items,
writes the cart back with `merge = false` and re-renders items and totals;
otherwise does nothing. -/
def removeFromCart (store : Option CartState) (productId : String) : OpResult :=
  let currentCart := store.getD emptyCart
  match findItem currentCart.products productId with
  | some _ =>
      let c := recomputedCart (eraseItem currentCart.products productId)
      { cart := c, storeWrite := some { cart := c, merge := false }
        renderedItems := true, updatedTotals := true }
  | none =>
      { cart := currentCart, storeWrite := none
        renderedItems := false, updatedTotals := false }

/-- `updateQuantity(productId, newQuantity, block)` from
`blocks/cart/cart.js`: parses the new quantity with `parseInt`; when the
parsed value is `< 1` it delegates to `removeFromCart`; otherwise, if the
line item exists, it overwrites its `quantity`, recomputes the item's
`subTotal`/`total` and the cart aggregates, writes the cart back with
`merge = false` and updates the totals display (but does not re-render the
item list); when the item is absent it does nothing. -/
def updateQuantity (store : Option CartState) (productId : String)
    (newQuantity : QtyInput) : OpResult :=
  let quantity := parseQty newQuantity
  if quantity.ltInt 1 then removeFromCart store productId
  else
    let currentCart := store.getD emptyCart
    match findItem currentCart.products productId with
    | some _ =>
        let c := recomputedCart
          (setItem currentCart.products productId (qtyUpdatedItem quantity))
        { cart := c, storeWrite := some { cart := c, merge := false }
          renderedItems := false, updatedTotals := true }
    | none =>
        { cart := currentCart, storeWrite := none
          renderedItems := false, updatedTotals := false }

end Cart

/-- ASCII lowercasing of one character, as `String.prototype.toLowerCase`
acts on the characters appearing in this code's data. -/
def jsToLower (c : Char) : Char :=
  if 65 ≤ c.toNat ∧ c.toNat ≤ 90 then Char.ofNat (c.toNat + 32) else c

/-- ASCII uppercasing of one character. -/
def jsToUpper (c : Char) : Char :=
  if 97 ≤ c.toNat ∧ c.toNat ≤ 122 then Char.ofNat (c.toNat - 32) else c

/-- `s.toLowerCase()`. -/
def lowerStr (s : String) : String := String.mk (s.data.map jsToLower)

/-- `s.replace(/^[^:]+:/, "")`: drop a non-empty colon-free prefix together
with the first colon; a string starting with a colon or containing no colon
is unchanged. -/
def stripCatNs (s : String) : String :=
  let cs := s.data
  let pre := cs.takeWhile (fun c => c ≠ ':')
  if pre.length = 0 ∨ pre.length = cs.length then s
  else String.mk (cs.drop (pre.length + 1))

/-- `s.split(sep)` for a single-character separator: every occurrence of
the separator splits, empty fields included. -/
def splitOnChar (sep : Char) : List Char → List (List Char)
  | [] => [[]]
  | c :: rest =>
    let r := splitOnChar sep rest
    if c = sep then [] :: r
    else
      match r with
      | h :: t => (c :: h) :: t
      | [] => [[c]]

/-- `s.split(sep)[0]` as a string. -/
def jsSplitHead (sep : Char) (s : String) : String :=
  (((splitOnChar sep s.data).map (fun cs => String.mk cs)).headD "")

mutual

/-- Token state of the regex split on runs of separator characters
(`s.split(/[/,]+/)`): collecting the current field. -/
def srTok (isSep : Char → Bool) (cur : List Char) : List Char → List (List Char)
  | [] => [cur.reverse]
  | c :: rest =>
    if isSep c then cur.reverse :: srSep isSep rest else srTok isSep (c :: cur) rest

/-- Separator state of the regex split: consuming a run of separators. -/
def srSep (isSep : Char → Bool) : List Char → List (List Char)
  | [] => [[]]
  | c :: rest => if isSep c then srSep isSep rest else srTok isSep [c] rest

end

/-- `s.split(re)` where `re` matches one-or-more characters satisfying
`isSep`: a maximal separator run is a single split point. -/
def splitRuns (isSep : Char → Bool) (s : String) : List String :=
  (srTok isSep [] s.data).map (fun cs => String.mk cs)

/-- Categories contributed by one cart line item: the flat `category`
string (when truthy) split on runs of `/` or `,`, trimmed, lowercased and
with empty parts dropped. -/
def lineItemCats (item : LineItem) : List String :=
  match item.category with
  | some s =>
    if s != "" then
      ((splitRuns (fun c => c = '/' || c = ',') s).map
        (fun t => lowerStr (jsTrim t))).filter (fun t => t ≠ "")
    else []
  | none => []

/-- The set of normalized categories collected from all cart line items
(the `cartCategories` set of `buildRecommendations`); modelled as a list
whose membership is the set membership. -/
def cartCategoriesOf (c : CartState) : List String :=
  c.products.flatMap (fun p => lineItemCats p.2)

/-- Author/publish URL pair of an image reference
(`_authorUrl`/`_publishUrl`). -/
structure ImgRef where
  authorUrl : Option String
  publishUrl : Option String
deriving DecidableEq, Repr

/-- The `externalImageURL` field: either a bare string or an object
wrapping an optional `plaintext` value. -/
inductive ExtImg where
  | str : String → ExtImg
  | obj : Option String → ExtImg
deriving DecidableEq, Repr

/-- The `description` object with its three optional renderings. -/
structure Desc where
  html : Option String
  markdown : Option String
  plaintext : Option String
deriving DecidableEq, Repr

/-- A CMS product record as consumed by these blocks. -/
structure Product where
  sku : Option String
  id : Option String
  name : Option String
  price : Option JSNum
  category : Option (List String)
  description : Option Desc
  image : Option ImgRef
  externalImageURL : Option ExtImg
  damImageURL : Option ImgRef
deriving DecidableEq, Repr

/-- `(product.sku || product.id || "").toString()`. -/
def skuOrIdStr (p : Product) : String := jsOrSD (jsOrS p.sku p.id) ""

/-- A child of a block container, as far as the recommendation caller is
concerned. -/
inductive ViewNode where
  | recsSection : List Product → ViewNode
  | other : Nat → ViewNode
deriving DecidableEq

/-- The call-site pattern `if (recommendations) container.appendChild(...)`
shared by both blocks: a `null` result appends nothing. -/
def appendRecommendations (children : List ViewNode) (recs : Option (List Product)) :
    List ViewNode :=
  match recs with
  | none => children
  | some l => children ++ [ViewNode.recsSection l]

/-- One level of the optional chain `json?.data?.<list>?.items`. -/
structure ModelList where
  items : Option (List (Option Product))
deriving DecidableEq

/-- The `data` member of the GraphQL JSON envelope. -/
structure JsonData where
  productsContentFragmentModelList : Option ModelList
  productsModelList : Option ModelList
deriving DecidableEq

/-- The parsed JSON response envelope. -/
structure JsonEnvelope where
  data : Option JsonData
deriving DecidableEq

/-- Outcome of `await fetch(...)` followed by `await resp.json()`:
`failure` covers a network error or a JSON parse error (both raise and are
caught by the surrounding `try`). -/
inductive FetchOutcome (α : Type) where
  | failure : FetchOutcome α
  | success : α → FetchOutcome α

/-- `json?.data?.<f>?.items` — `undefined` as soon as one link is absent. -/
def itemsPath (j : JsonEnvelope) (f : JsonData → Option ModelList) :
    Option (List (Option Product)) :=
  j.data.bind (fun d => (f d).bind (fun m => m.items))

/-- `json?.data?.productsContentFragmentModelList?.items ||
json?.data?.productsModelList?.items || []` — an array is always truthy,
including an empty one. -/
def itemsOf (j : JsonEnvelope) : List (Option Product) :=
  (if (itemsPath j (fun d => d.productsContentFragmentModelList)).isSome
   then itemsPath j (fun d => d.productsContentFragmentModelList)
   else itemsPath j (fun d => d.productsModelList)).getD []

/-- The folder-listing filter `item && (item.sku || item.id)`, as the
keep-function of a `filterMap`. -/
def keepSkuId : Option Product → Option Product
  | some p => if strTruthy p.sku || strTruthy p.id then some p else none
  | none => none

/-- The flattened product object written to the data layer by
`buildProductDetail` (all fields defaulted to `""`/`0` as in the source). -/
structure ProductData where
  id : String
  sku : String
  name : String
  price : JSNum
  category : String
  description : String
  image : String
  thumbnail : String
deriving DecidableEq, Repr

/-- Modelled from the spec: the shared data-layer update function
(`window.updateDataLayer`, defined outside this repository) deep-merges the
partial object when called without a merge flag and fully replaces the
named key when called with `merge = false`; this gives the effective merge
semantics of an optional flag argument. -/
def effectiveMerge : Option Bool → Bool
  | none => true
  | some b => b

/-- A data-layer write performed by the product-detail block: target key,
written value, and the merge flag as passed (absent at this call site). -/
structure PDWrite where
  key : String
  value : ProductData
  mergeFlag : Option Bool
deriving DecidableEq, Repr

namespace Cart

/-- The inline category normalizer of `buildRecommendations` in
`blocks/cart/cart.js`: lowercase, then drop a leading `namespace:` part. -/
def normalizeProductCat (cat : String) : String := stripCatNs (lowerStr cat)

/-- `buildRecommendations(allProducts, cartData, ...)` from
`blocks/cart/cart.js`, reduced to the data it selects: filters the
candidate list to products whose sku-or-id is not a key of the cart's
products mapping and that have a nonempty normalized category contained in
the cart's category set, truncates to the first 5, and returns `null`
(no section) when nothing matched. -/
def buildRecommendations (allProducts : List Product) (cartData : CartState) :
    Option (List Product) :=
  let cartCategories := cartCategoriesOf cartData
  let cartProductIds := cartData.products.map (fun p => p.1)
  let recommendations :=
    (allProducts.filter (fun product =>
      let pid := skuOrIdStr product
      if cartProductIds.contains pid then false
      else
        let productCats :=
          ((product.category.getD []).map normalizeProductCat).filter (fun c => c ≠ "")
        productCats.any (fun c => cartCategories.contains c))).take 5
  if recommendations.isEmpty then none else some recommendations

/-- `fetchAllProducts(path, isAuthor, isLegacy)` from `blocks/cart/cart.js`
with the network outcome made explicit: a falsy path or any fetch/parse
failure yields `[]`; otherwise the items array is read from either schema
root and records lacking both a truthy `sku` and a truthy `id` (or that are
`null`) are dropped. -/
def fetchAllProducts (path : Option String) (isAuthor : Bool) (isLegacy : Bool)
    (outcome : FetchOutcome JsonEnvelope) : List Product :=
  if !strTruthy path then []
  else
    match outcome with
    | .failure => []
    | .success json =>
        (itemsOf json).filterMap keepSkuId

/-- `getProductImageUrl(item, isAuthor, isLegacy)` from
`blocks/cart/cart.js`. -/
def getProductImageUrl (item : Option Product) (isAuthor : Bool) (isLegacy : Bool) :
    Option String :=
  match item with
  | none => none
  | some it =>
    if isLegacy then
      match it.image with
      | some image =>
        if strTruthy image.authorUrl || strTruthy image.publishUrl then
          if isAuthor then image.authorUrl else image.publishUrl
        else none
      | none => none
    else
      let extUrl : Option String :=
        match it.externalImageURL with
        | some (.str s) => if s != "" then some s else none
        | some (.obj pt) => pt
        | none => none
      match (if strTruthy extUrl then extUrl else none) with
      | some u => some u
      | none =>
        match it.damImageURL with
        | some dam =>
          if strTruthy dam.authorUrl || strTruthy dam.publishUrl then
            if isAuthor then dam.authorUrl else dam.publishUrl
          else none
        | none => none

end Cart

namespace ProductDetail

/-- The inline `normalizeCat` of `buildRecommendations` in
`blocks/product-detail/product-detail.js`. -/
def normalizeCat (cat : String) : String := stripCatNs (lowerStr cat)

/-- `buildRecommendations(currentProduct, allProducts, ...)` from
`blocks/product-detail/product-detail.js`, reduced to the data it selects. -/
def buildRecommendations (currentProduct : Product) (allProducts : List Product) :
    Option (List Product) :=
  let currentCategories := currentProduct.category.getD []
  if currentCategories.isEmpty then none
  else
    let currentNorm := (currentCategories.map normalizeCat).filter (fun c => c ≠ "")
    let recs :=
      (allProducts.filter (fun product =>
        if jsOrS product.sku product.id == jsOrS currentProduct.sku currentProduct.id
        then false
        else
          let productCategories :=
            ((product.category.getD []).map normalizeCat).filter (fun c => c ≠ "")
          currentNorm.any (fun c => productCategories.contains c))).take 5
    if recs.isEmpty then none else some recs

/-- `fetchAllProducts(path, isAuthor, isLegacy)` from
`blocks/product-detail/product-detail.js` (same body as the cart's). -/
def fetchAllProducts (path : Option String) (isAuthor : Bool) (isLegacy : Bool)
    (outcome : FetchOutcome JsonEnvelope) : List Product :=
  if !strTruthy path then []
  else
    match outcome with
    | .failure => []
    | .success json =>
        (itemsOf json).filterMap keepSkuId

/-- The `items.find(...)` step of the non-legacy single-product fetch: a
`null` element makes the callback throw, which the surrounding `try`
converts into a `null` result. -/
def findBySku : List (Option Product) → String → Option Product
  | [], _ => none
  | none :: _, _ => none
  | some p :: rest, sku => if skuOrIdStr p == sku then some p else findBySku rest sku

/-- `fetchProductDetail(path, sku, isAuthor, isLegacy)` from
`blocks/product-detail/product-detail.js` with the network outcome made
explicit: missing path/sku or any fetch/parse failure yields `null`; the
legacy branch returns the first item of the legacy list (or `null`), the
current branch looks the sku up by stringified sku-or-id. -/
def fetchProductDetail (path : Option String) (sku : Option String)
    (isAuthor : Bool) (isLegacy : Bool) (outcome : FetchOutcome JsonEnvelope) :
    Option Product :=
  if !strTruthy path || !strTruthy sku then none
  else
    match outcome with
    | .failure => none
    | .success json =>
      if isLegacy then
        match (itemsPath json (fun d => d.productsModelList)).getD [] with
        | [] => none
        | it :: _ => it
      else
        findBySku (itemsOf json) (sku.getD "")

/-- `getProductImageUrl(item, isAuthor, isLegacy)` from
`blocks/product-detail/product-detail.js` (same body as the cart's). -/
def getProductImageUrl (item : Option Product) (isAuthor : Bool) (isLegacy : Bool) :
    Option String :=
  match item with
  | none => none
  | some it =>
    if isLegacy then
      match it.image with
      | some image =>
        if strTruthy image.authorUrl || strTruthy image.publishUrl then
          if isAuthor then image.authorUrl else image.publishUrl
        else none
      | none => none
    else
      let extUrl : Option String :=
        match it.externalImageURL with
        | some (.str s) => if s != "" then some s else none
        | some (.obj pt) => pt
        | none => none
      match (if strTruthy extUrl then extUrl else none) with
      | some u => some u
      | none =>
        match it.damImageURL with
        | some dam =>
          if strTruthy dam.authorUrl || strTruthy dam.publishUrl then
            if isAuthor then dam.authorUrl else dam.publishUrl
          else none
        | none => none

/-- `", ".join` step of `formatCategoryDisplay`. -/
def joinCommaSpace (l : List String) : String := String.intercalate ", " l

/-- `.replace(/,/g, " /")`. -/
def replaceCommasWithSlash (s : String) : String :=
  String.mk (s.data.flatMap (fun c => if c = ',' then " /".data else [c]))

/-- One pass of `.replace(/\b\w/g, (char) => char.toUpperCase())`: a word
character not preceded by a word character is uppercased; boundaries are
judged on the original characters. -/
def titleCaseGo : Bool → List Char → List Char
  | _, [] => []
  | prevWord, c :: rest =>
    let isW := c.isAlphanum || c = '_'
    (if !prevWord && isW then jsToUpper c else c) :: titleCaseGo isW rest

/-- `.replace(/\b\w/g, (char) => char.toUpperCase())` on a string. -/
def titleCaseWordStarts (s : String) : String := String.mk (titleCaseGo false s.data)

/-- `formatCategoryDisplay(category)` from
`blocks/product-detail/product-detail.js`: take the part after the first
colon of each entry, drop empties, join with `", "`, turn commas into
`" /"`, lowercase, then title-case word starts. -/
def formatCategoryDisplay (category : Option (List String)) : String :=
  match category with
  | none => ""
  | some cats =>
    if cats.isEmpty then ""
    else
      let cleaned := (cats.map (fun cat =>
        let parts := (splitOnChar ':' cat.data).map (fun cs => String.mk cs)
        if parts.length > 1 then parts.getD 1 "" else cat)).filter (fun c => c != "")
      titleCaseWordStarts (lowerStr (replaceCommasWithSlash (joinCommaSpace cleaned)))

/-- The display name computed by `buildProductDetail`:
`name ? name.split(",")[0].trim() : ""`. -/
def displayNameOf (name : Option String) : String :=
  if strTruthy name then jsTrim (jsSplitHead ',' (name.getD "")) else ""

/-- `description?.html || description?.markdown || description?.plaintext
|| ""`. -/
def descriptionTextOf (d : Option Desc) : String :=
  match d with
  | none => ""
  | some dd => jsOrSD (jsOrS dd.html (jsOrS dd.markdown dd.plaintext)) ""

/-- The derived `productData` object that `buildProductDetail` sends to the
data layer. -/
def productDataOf (product : Product) (isAuthor : Bool) (isLegacy : Bool) : ProductData :=
  let imageUrl := getProductImageUrl (some product) isAuthor isLegacy
  let displayName := displayNameOf product.name
  { id := jsOrSD (jsOrS product.id product.sku) ""
    sku := jsOrSD product.sku ""
    name := jsOrSD (jsOrS (some displayName) product.name) ""
    price :=
      match product.price with
      | some pr => if pr.truthy then pr else .num 0
      | none => .num 0
    category := formatCategoryDisplay product.category
    description := descriptionTextOf product.description
    image := jsOrSD imageUrl ""
    thumbnail := jsOrSD imageUrl "" }

/-- The data-layer write performed by `buildProductDetail`:
`window.updateDataLayer({ product: productData })` — key `"product"`, no
merge flag passed. -/
def buildProductDetailWrite (product : Product) (isAuthor : Bool) (isLegacy : Bool) :
    PDWrite :=
  { key := "product", value := productDataOf product isAuthor isLegacy, mergeFlag := none }

end ProductDetail

/-- Per-line-item part of the cart invariant: `subTotal == quantity * price`. -/
def itemInvariant (c : CartState) : Prop :=
  ∀ p ∈ c.products, p.2.subTotal = p.2.quantity.mul p.2.price

/-- Cart-level aggregate part of the invariant: the stored aggregates are
exactly the reductions over the current line items. -/
def aggregatesExact (c : CartState) : Prop :=
  c.productCount = sumBy (·.quantity) c.products ∧
  c.subTotal = sumBy (·.subTotal) c.products ∧
  c.total = c.subTotal

/-- Follows the spec's words for the cart recommendation filter: the
candidate's sku-or-id differs from every product id already in the cart,
and the candidate has at least one normalized category in the cart's
category set. -/
def recCandidateSpecCart (cartData : CartState) (product : Product) : Bool :=
  (cartData.products.map (fun p => p.1)).all (fun k => skuOrIdStr product != k) &&
  ((product.category.getD []).map Cart.normalizeProductCat).any
    (fun c => (cartCategoriesOf cartData).contains c)

/-- Follows the spec's words for the product-detail recommendation filter:
the candidate's sku-or-id differs from the current product's, and the
candidate shares at least one (nonempty) normalized category with the
current product's normalized categories. -/
def recCandidateSpecPD (currentProduct product : Product) : Bool :=
  !(jsOrS product.sku product.id == jsOrS currentProduct.sku currentProduct.id) &&
  ((product.category.getD []).map ProductDetail.normalizeCat).any
    (fun c => c != "" &&
      ((currentProduct.category.getD []).map ProductDetail.normalizeCat).contains c)

/-- URL taken from an `externalImageURL` value per the spec's words:
directly when it is a string, else from its `plaintext` wrapper; absent
(JS-falsy, so also an empty string) counts as no URL. -/
def externalUrlOf : Option ExtImg → Option String
  | some (.str s) => if s != "" then some s else none
  | some (.obj pt) => if strTruthy pt then pt else none
  | none => none

/-- Author/publish sub-field of an image reference per the spec's words:
the author-specific sub-field in the author environment and the
publish-specific one otherwise; `null` when the reference is absent or
carries no (truthy) URL at all. -/
def refUrlOf (r : Option ImgRef) (isAuthor : Bool) : Option String :=
  match r with
  | none => none
  | some img =>
    if strTruthy img.authorUrl || strTruthy img.publishUrl then
      if isAuthor then img.authorUrl else img.publishUrl
    else none

/-- Follows the spec's words for image URL resolution: under the legacy
schema the single `image` field's author/publish sub-field (null when the
field is absent); under the current schema the external image URL when
present, else the DAM image's author/publish sub-field, else null. -/
def imageUrlSpec (item : Option Product) (isAuthor : Bool) (isLegacy : Bool) :
    Option String :=
  match item with
  | none => none
  | some it =>
    if isLegacy then refUrlOf it.image isAuthor
    else
      match externalUrlOf it.externalImageURL with
      | some u => some u
      | none => refUrlOf it.damImageURL isAuthor

/-- The `if (imageUrl)` guard with which `buildProductDetail` and the card
builders decide whether to render an image element at all. -/
def rendersImageElement (imageUrl : Option String) : Bool := strTruthy imageUrl

/-- Text before the first comma of a string (the whole string when it has
no comma) — the spec's description of the display-name reduction. -/
def beforeFirstComma (s : String) : String :=
  String.mk (s.data.takeWhile (fun c => c ≠ ','))

/-- A concrete line item used by the witnesses: quantity 2 at unit price
10, consistent subtotal 20. -/
def sampleItem : LineItem :=
  { id := some "sku-1", name := some "Shirt", image := none
    category := some "shoes", quantity := .num 2, price := .num 10
    subTotal := .num 20, total := .num 20 }

/-- A concrete one-item cart used by the witnesses. -/
def sampleCart : CartState :=
  { productCount := .num 2
    products := [("sku-1", sampleItem)]
    subTotal := .num 20, total := .num 20 }

/-- A concrete CMS product record used by the witnesses. -/
def sampleProduct : Product :=
  { sku := some "sku-9", id := none, name := some "Alpine Boots, waterproof"
    price := some (.num 25), category := some ["demo123:Running Shoes"]
    description := none, image := none
    externalImageURL := some (.str "https://img.example/boots.png")
    damImageURL := none }

theorem findItem_setItem_self (ps : List (String × LineItem)) (k : String)
    (f : LineItem → LineItem) (v : LineItem) (h : findItem ps k = some v) :
    findItem (setItem ps k f) k = some (f v) := by
  induction ps with
  | nil => simp [findItem] at h
  | cons p t ih =>
    by_cases hk : p.1 = k
    · simp only [findItem, hk, if_pos, Option.some.injEq] at h
      simp only [setItem, List.map_cons, hk, if_pos, findItem, h]
    · simp only [findItem, hk, if_neg, ite_false] at h
      simpa only [setItem, List.map_cons, hk, ite_false, findItem] using ih h

theorem mem_setItem (ps : List (String × LineItem)) (k : String)
    (f : LineItem → LineItem) (q : String × LineItem) (h : q ∈ setItem ps k f) :
    ∃ p ∈ ps, q = if p.1 = k then (p.1, f p.2) else p := by
  rcases List.mem_map.mp h with ⟨p, hp, rfl⟩
  exact ⟨p, hp, rfl⟩

theorem removeFromCart_none_eq (store : Option CartState) (productId : String)
    (h : findItem (store.getD emptyCart).products productId = none) :
    Cart.removeFromCart store productId =
      { cart := store.getD emptyCart, storeWrite := none
        renderedItems := false, updatedTotals := false } := by
  unfold Cart.removeFromCart
  simp only [h]

theorem removeFromCart_some_eq (store : Option CartState) (productId : String)
    (v : LineItem)
    (h : findItem (store.getD emptyCart).products productId = some v) :
    Cart.removeFromCart store productId =
      { cart := recomputedCart (eraseItem (store.getD emptyCart).products productId)
        storeWrite := some
          { cart := recomputedCart (eraseItem (store.getD emptyCart).products productId)
            merge := false }
        renderedItems := true, updatedTotals := true } := by
  unfold Cart.removeFromCart
  simp only [h]

theorem updateQuantity_lt1_eq (store : Option CartState) (productId : String)
    (q : QtyInput) (h : (parseQty q).ltInt 1 = true) :
    Cart.updateQuantity store productId q = Cart.removeFromCart store productId := by
  unfold Cart.updateQuantity
  simp only [h, if_true]

theorem updateQuantity_ge1_none_eq (store : Option CartState) (productId : String)
    (q : QtyInput) (hlt : (parseQty q).ltInt 1 = false)
    (h : findItem (store.getD emptyCart).products productId = none) :
    Cart.updateQuantity store productId q =
      { cart := store.getD emptyCart, storeWrite := none
        renderedItems := false, updatedTotals := false } := by
  unfold Cart.updateQuantity
  simp only [hlt, Bool.false_eq_true, if_false, h]

theorem updateQuantity_ge1_some_eq (store : Option CartState) (productId : String)
    (q : QtyInput) (v : LineItem) (hlt : (parseQty q).ltInt 1 = false)
    (h : findItem (store.getD emptyCart).products productId = some v) :
    Cart.updateQuantity store productId q =
      { cart := recomputedCart (setItem (store.getD emptyCart).products productId
          (qtyUpdatedItem (parseQty q)))
        storeWrite := some
          { cart := recomputedCart (setItem (store.getD emptyCart).products productId
              (qtyUpdatedItem (parseQty q)))
            merge := false }
        renderedItems := false, updatedTotals := true } := by
  unfold Cart.updateQuantity
  simp only [hlt, Bool.false_eq_true, if_false, h]

theorem aggregatesExact_recomputedCart (ps : List (String × LineItem)) :
    aggregatesExact (recomputedCart ps) :=
  ⟨rfl, rfl, rfl⟩

theorem itemInvariant_recomputedCart_erase (c : CartState) (k : String)
    (hinv : itemInvariant c) :
    itemInvariant (recomputedCart (eraseItem c.products k)) := by
  intro p hp
  exact hinv p (List.mem_filter.mp hp).1

theorem itemInvariant_recomputedCart_setItem (c : CartState) (k : String)
    (quantity : JSNum) (hinv : itemInvariant c) :
    itemInvariant (recomputedCart (setItem c.products k (qtyUpdatedItem quantity))) := by
  intro p hp
  rcases mem_setItem _ _ _ p hp with ⟨p0, hp0, hpe⟩
  by_cases hk : p0.1 = k
  · rw [if_pos hk] at hpe
    subst hpe
    rfl
  · rw [if_neg hk] at hpe
    exact hpe ▸ hinv p0 hp0

/-- C3: `updateQuantity(id, 0)` and `updateQuantity(id, -1)` (whether the
argument arrives as a number or as the corresponding input-field string)
produce exactly the same result — cart state, store write and display
effects — as `removeFromCart(id)`, for every cart store state and id. -/
theorem updateQuantity_lt_one_eq_removeFromCart :
    ∀ (store : Option CartState) (productId : String),
      Cart.updateQuantity store productId (.num (.num 0)) =
        Cart.removeFromCart store productId ∧
      Cart.updateQuantity store productId (.num (.num (-1))) =
        Cart.removeFromCart store productId ∧
      Cart.updateQuantity store productId (.str "0") =
        Cart.removeFromCart store productId ∧
      Cart.updateQuantity store productId (.str "-1") =
        Cart.removeFromCart store productId := by
  intro store productId
  exact ⟨rfl, rfl, rfl, rfl⟩

/-- C4: removing a product id that is absent from the cart's products
mapping is a complete no-op: no store write, no item-list re-render, no
totals update, and the cart object is exactly the one read from the
store. -/
theorem removeFromCart_absent_noop (store : Option CartState) (productId : String)
    (h : findItem (store.getD emptyCart).products productId = none) :
    Cart.removeFromCart store productId =
      { cart := store.getD emptyCart, storeWrite := none
        renderedItems := false, updatedTotals := false } := by
  unfold Cart.removeFromCart
  simp only [h]

/-- Witness for C4 at a concrete input: the empty store and id `"missing"`. -/
theorem removeFromCart_absent_noop_witness :
    Cart.removeFromCart none "missing" =
      { cart := emptyCart, storeWrite := none
        renderedItems := false, updatedTotals := false } :=
  removeFromCart_absent_noop none "missing" rfl

/-- C9: `updateQuantity` on a product id absent from the cart's products
mapping, with any parsed quantity `≥ 1`, is a complete no-op: no store
write, no totals-display update, no re-render, cart unchanged. -/
theorem updateQuantity_absent_noop (store : Option CartState) (productId : String)
    (q : QtyInput) (n : Int) (hq : parseQty q = .num n) (hn : 1 ≤ n)
    (h : findItem (store.getD emptyCart).products productId = none) :
    Cart.updateQuantity store productId q =
      { cart := store.getD emptyCart, storeWrite := none
        renderedItems := false, updatedTotals := false } := by
  unfold Cart.updateQuantity
  have hlt : (parseQty q).ltInt 1 = false := by
    rw [hq]; simp only [JSNum.ltInt, decide_eq_false_iff_not]; omega
  simp only [hlt, Bool.false_eq_true, if_false, h]

/-- Witness for C9 at a concrete input: empty store, id `"missing"`,
quantity `2`. -/
theorem updateQuantity_absent_noop_witness :
    Cart.updateQuantity none "missing" (.num (.num 2)) =
      { cart := emptyCart, storeWrite := none
        renderedItems := false, updatedTotals := false } :=
  updateQuantity_absent_noop none "missing" (.num (.num 2)) 2 rfl (by decide) rfl

/-- C5: when the product id is present and the new quantity string is
non-numeric (`parseInt` gives `NaN`), `updateQuantity` does not remove the
line item — the `< 1` comparison on `NaN` is false — and instead writes the
parsed `NaN` through as the item's quantity (its `subTotal`/`total` become
`NaN` with it), performing a store write with that corrupted item. -/
theorem updateQuantity_nan_writes_through (store : Option CartState)
    (productId : String) (s : String) (item : LineItem)
    (hfind : findItem (store.getD emptyCart).products productId = some item)
    (hnan : parseIntJS s = .nan) :
    findItem (Cart.updateQuantity store productId (.str s)).cart.products productId =
      some { item with quantity := .nan, subTotal := .nan, total := .nan } ∧
    (Cart.updateQuantity store productId (.str s)).storeWrite.isSome = true := by
  unfold Cart.updateQuantity
  have hpq : parseQty (.str s) = JSNum.nan := hnan
  simp only [hpq, JSNum.ltInt, Bool.false_eq_true, if_false, hfind]
  refine ⟨?_, rfl⟩
  exact findItem_setItem_self _ _ _ _ hfind

/-- Witness for C5 at a concrete input: a one-item cart and the quantity
string `"abc"`. -/
theorem updateQuantity_nan_writes_through_witness :
    findItem (Cart.updateQuantity (some sampleCart) "sku-1" (.str "abc")).cart.products
        "sku-1" =
      some { sampleItem with quantity := .nan, subTotal := .nan, total := .nan } ∧
    (Cart.updateQuantity (some sampleCart) "sku-1" (.str "abc")).storeWrite.isSome = true :=
  updateQuantity_nan_writes_through (some sampleCart) "sku-1" "abc" sampleItem rfl rfl

/-- C1: after every `removeFromCart` or `updateQuantity` call that mutates
the cart (performs a store write), assuming every pre-existing line item
satisfied `subTotal == quantity * price`, each remaining line item still
satisfies it, and the cart-level aggregates are exactly the reductions over
the current line items: `productCount = Σ quantity`, `subTotal = Σ
subTotal`, `total = subTotal`. -/
theorem cart_invariant_after_mutation (store : Option CartState) (productId : String)
    (q : QtyInput) (hinv : itemInvariant (store.getD emptyCart)) :
    ((Cart.removeFromCart store productId).storeWrite.isSome = true →
      itemInvariant (Cart.removeFromCart store productId).cart ∧
      aggregatesExact (Cart.removeFromCart store productId).cart) ∧
    ((Cart.updateQuantity store productId q).storeWrite.isSome = true →
      itemInvariant (Cart.updateQuantity store productId q).cart ∧
      aggregatesExact (Cart.updateQuantity store productId q).cart) := by
  have hrem : (Cart.removeFromCart store productId).storeWrite.isSome = true →
      itemInvariant (Cart.removeFromCart store productId).cart ∧
      aggregatesExact (Cart.removeFromCart store productId).cart := by
    cases hfind : findItem (store.getD emptyCart).products productId with
    | none =>
      rw [removeFromCart_none_eq store productId hfind]
      intro hw
      simp at hw
    | some v =>
      rw [removeFromCart_some_eq store productId v hfind]
      intro _
      exact ⟨itemInvariant_recomputedCart_erase _ _ hinv,
        aggregatesExact_recomputedCart _⟩
  refine ⟨hrem, ?_⟩
  cases hlt : (parseQty q).ltInt 1 with
  | true =>
    rw [updateQuantity_lt1_eq store productId q hlt]
    exact hrem
  | false =>
    cases hfind : findItem (store.getD emptyCart).products productId with
    | none =>
      rw [updateQuantity_ge1_none_eq store productId q hlt hfind]
      intro hw
      simp at hw
    | some v =>
      rw [updateQuantity_ge1_some_eq store productId q v hlt hfind]
      intro _
      exact ⟨itemInvariant_recomputedCart_setItem _ _ _ hinv,
        aggregatesExact_recomputedCart _⟩

theorem char_toNat_ofNat (n : Nat) (h : n < 0xd800) : (Char.ofNat n).toNat = n := by
  unfold Char.ofNat Char.ofNatAux Char.toNat
  rw [dif_pos (Or.inl h)]
  rfl

theorem jsToLower_ne_colon (c : Char) (h : c ≠ ':') : jsToLower c ≠ ':' := by
  unfold jsToLower
  split
  · rename_i hc
    intro heq
    have htn := congrArg Char.toNat heq
    rw [char_toNat_ofNat _ (by omega)] at htn
    have h58 : (':' : Char).toNat = 58 := rfl
    omega
  · exact h

theorem takeWhile_append_stop {α : Type} (p : α → Bool) (xs : List α) (y : α)
    (ys : List α) (hx : ∀ x ∈ xs, p x = true) (hy : p y = false) :
    (xs ++ y :: ys).takeWhile p = xs := by
  induction xs with
  | nil => simp [List.takeWhile_cons, hy]
  | cons a t ih =>
    have ha : p a = true := hx a (by simp)
    simp only [List.cons_append, List.takeWhile_cons, ha, if_true, List.cons.injEq,
      true_and]
    exact ih (fun x hx' => hx x (by simp [hx']))

theorem drop_append_succ {α : Type} (xs : List α) (y : α) (ys : List α) :
    (xs ++ y :: ys).drop (xs.length + 1) = ys := by
  have hsplit : xs ++ y :: ys = (xs ++ [y]) ++ ys := by simp
  have hlen : (xs ++ [y]).length = xs.length + 1 := by simp
  rw [hsplit, ← hlen, List.drop_left]

theorem stripCatNs_eq (s : String) (lp lq : List Char)
    (hdata : s.data = lp ++ ':' :: lq) (hx : ∀ x ∈ lp, x ≠ ':') (hne : lp ≠ []) :
    stripCatNs s = String.mk lq := by
  have htake : (s.data.takeWhile (fun c => decide (c ≠ ':'))) = lp := by
    rw [hdata]
    exact takeWhile_append_stop _ lp ':' lq
      (fun x hx' => by simpa using hx x hx') (by simp)
  unfold stripCatNs
  simp only [htake]
  rw [if_neg, hdata, drop_append_succ]
  push_neg
  constructor
  · exact fun h => hne (List.length_eq_zero.mp h)
  · rw [hdata]
    simp only [List.length_append, List.length_cons]
    omega

/-- Witness for C1 at a concrete input: the one-item sample cart, its own
id and quantity 3; the invariant hypothesis holds there and the theorem
applies. -/
theorem cart_invariant_after_mutation_witness :
    itemInvariant ((some sampleCart).getD emptyCart) ∧
    (((Cart.removeFromCart (some sampleCart) "sku-1").storeWrite.isSome = true →
        itemInvariant (Cart.removeFromCart (some sampleCart) "sku-1").cart ∧
        aggregatesExact (Cart.removeFromCart (some sampleCart) "sku-1").cart) ∧
      ((Cart.updateQuantity (some sampleCart) "sku-1"
            (.num (.num 3))).storeWrite.isSome = true →
        itemInvariant (Cart.updateQuantity (some sampleCart) "sku-1"
          (.num (.num 3))).cart ∧
        aggregatesExact (Cart.updateQuantity (some sampleCart) "sku-1"
          (.num (.num 3))).cart)) :=
  ⟨by unfold itemInvariant; decide,
    cart_invariant_after_mutation (some sampleCart) "sku-1" (.num (.num 3))
      (by unfold itemInvariant; decide)⟩

/-- C8: category normalization strips everything up to and including the
first colon and lowercases the remainder (shown here for any
`namespace:value` string with a nonempty colon-free namespace part), so
`"demo123:Running Shoes"` normalizes to `"running shoes"`; and
`formatCategoryDisplay` title-cases that category to `"Running Shoes"`. -/
theorem category_normalization_and_display (pre post : String)
    (hpre : ∀ c ∈ pre.data, c ≠ ':') (hne : pre ≠ "") :
    Cart.normalizeProductCat (pre ++ ":" ++ post) = lowerStr post ∧
    ProductDetail.normalizeCat (pre ++ ":" ++ post) = lowerStr post ∧
    Cart.normalizeProductCat "demo123:Running Shoes" = "running shoes" ∧
    ProductDetail.formatCategoryDisplay (some ["demo123:Running Shoes"]) =
      "Running Shoes" := by
  have hmain : stripCatNs (lowerStr (pre ++ ":" ++ post)) = lowerStr post := by
    apply stripCatNs_eq _ (pre.data.map jsToLower) (post.data.map jsToLower)
    · show ((pre ++ ":" ++ post).data.map jsToLower) = _
      rw [String.data_append, String.data_append]
      have hc : (":" : String).data = [':'] := rfl
      rw [hc, List.append_assoc, List.singleton_append, List.map_append, List.map_cons]
      rfl
    · intro x hx'
      rcases List.mem_map.mp hx' with ⟨c, hc, rfl⟩
      exact jsToLower_ne_colon c (hpre c hc)
    · intro h
      apply hne
      apply String.ext
      have hd : pre.data = [] := List.map_eq_nil_iff.mp h
      simp [hd]
  exact ⟨hmain, hmain, by decide, by decide⟩

/-- Witness for C8 at the spec's own example: namespace `"demo123"`, value
`"Running Shoes"`. -/
theorem category_normalization_and_display_witness :
    Cart.normalizeProductCat ("demo123" ++ ":" ++ "Running Shoes") =
      lowerStr "Running Shoes" ∧
    ProductDetail.normalizeCat ("demo123" ++ ":" ++ "Running Shoes") =
      lowerStr "Running Shoes" ∧
    Cart.normalizeProductCat "demo123:Running Shoes" = "running shoes" ∧
    ProductDetail.formatCategoryDisplay (some ["demo123:Running Shoes"]) =
      "Running Shoes" :=
  category_normalization_and_display "demo123" "Running Shoes"
    (by decide) (by decide)

theorem all_filterMap_keepSkuId (l : List (Option Product)) :
    ((l.filterMap keepSkuId).all (fun p => strTruthy p.sku || strTruthy p.id)) = true := by
  induction l with
  | nil => rfl
  | cons h t ih =>
    rw [List.filterMap_cons]
    cases h with
    | none => exact ih
    | some p =>
      cases hp : strTruthy p.sku || strTruthy p.id with
      | true =>
        have hk : keepSkuId (some p) = some p := by simp [keepSkuId, hp]
        rw [hk, List.all_cons, hp, ih]
        rfl
      | false =>
        have hk : keepSkuId (some p) = none := by simp [keepSkuId, hp]
        rw [hk]
        exact ih

/-- C7: a network or JSON-parse failure makes the single-product fetch
return `null` and both folder-listing fetches return the empty list (no
exception escapes); and on any successful folder listing, every returned
record has a truthy `sku` or a truthy `id` — records lacking both are
filtered out. -/
theorem fetch_error_handling (path sku : Option String) (isAuthor isLegacy : Bool)
    (json : JsonEnvelope) :
    ProductDetail.fetchProductDetail path sku isAuthor isLegacy .failure = none ∧
    Cart.fetchAllProducts path isAuthor isLegacy .failure = [] ∧
    ProductDetail.fetchAllProducts path isAuthor isLegacy .failure = [] ∧
    (Cart.fetchAllProducts path isAuthor isLegacy (.success json)).all
      (fun p => strTruthy p.sku || strTruthy p.id) = true ∧
    (ProductDetail.fetchAllProducts path isAuthor isLegacy (.success json)).all
      (fun p => strTruthy p.sku || strTruthy p.id) = true := by
  refine ⟨?_, ?_, ?_, ?_, ?_⟩
  · unfold ProductDetail.fetchProductDetail
    split
    · rfl
    · rfl
  · unfold Cart.fetchAllProducts
    split
    · rfl
    · rfl
  · unfold ProductDetail.fetchAllProducts
    split
    · rfl
    · rfl
  · unfold Cart.fetchAllProducts
    split
    · rfl
    · exact all_filterMap_keepSkuId (itemsOf json)
  · unfold ProductDetail.fetchAllProducts
    split
    · rfl
    · exact all_filterMap_keepSkuId (itemsOf json)

theorem cart_image_eq_spec (item : Option Product) (isAuthor isLegacy : Bool) :
    Cart.getProductImageUrl item isAuthor isLegacy =
      imageUrlSpec item isAuthor isLegacy := by
  cases item with
  | none => rfl
  | some it =>
    cases isLegacy with
    | true =>
      cases hi : it.image <;>
        simp [Cart.getProductImageUrl, imageUrlSpec, refUrlOf, hi]
    | false =>
      cases he : it.externalImageURL with
      | none =>
        cases hd : it.damImageURL <;>
          simp [Cart.getProductImageUrl, imageUrlSpec, externalUrlOf, refUrlOf, he, hd]
      | some e =>
        cases e with
        | str s =>
          by_cases hs : s = ""
          · subst hs
            cases hd : it.damImageURL <;>
              simp [Cart.getProductImageUrl, imageUrlSpec, externalUrlOf, refUrlOf,
                he, hd, strTruthy]
          · simp [Cart.getProductImageUrl, imageUrlSpec, externalUrlOf, refUrlOf,
              he, hs, strTruthy]
        | obj pt =>
          cases pt with
          | none =>
            cases hd : it.damImageURL <;>
              simp [Cart.getProductImageUrl, imageUrlSpec, externalUrlOf, refUrlOf,
                he, hd, strTruthy]
          | some u =>
            by_cases hu : u = ""
            · subst hu
              cases hd : it.damImageURL <;>
                simp [Cart.getProductImageUrl, imageUrlSpec, externalUrlOf, refUrlOf,
                  he, hd, strTruthy]
            · simp [Cart.getProductImageUrl, imageUrlSpec, externalUrlOf, refUrlOf,
                he, hu, strTruthy]

theorem pd_image_eq_spec (item : Option Product) (isAuthor isLegacy : Bool) :
    ProductDetail.getProductImageUrl item isAuthor isLegacy =
      imageUrlSpec item isAuthor isLegacy := by
  cases item with
  | none => rfl
  | some it =>
    cases isLegacy with
    | true =>
      cases hi : it.image <;>
        simp [ProductDetail.getProductImageUrl, imageUrlSpec, refUrlOf, hi]
    | false =>
      cases he : it.externalImageURL with
      | none =>
        cases hd : it.damImageURL <;>
          simp [ProductDetail.getProductImageUrl, imageUrlSpec, externalUrlOf, refUrlOf, he, hd]
      | some e =>
        cases e with
        | str s =>
          by_cases hs : s = ""
          · subst hs
            cases hd : it.damImageURL <;>
              simp [ProductDetail.getProductImageUrl, imageUrlSpec, externalUrlOf, refUrlOf,
                he, hd, strTruthy]
          · simp [ProductDetail.getProductImageUrl, imageUrlSpec, externalUrlOf, refUrlOf,
              he, hs, strTruthy]
        | obj pt =>
          cases pt with
          | none =>
            cases hd : it.damImageURL <;>
              simp [ProductDetail.getProductImageUrl, imageUrlSpec, externalUrlOf, refUrlOf,
                he, hd, strTruthy]
          | some u =>
            by_cases hu : u = ""
            · subst hu
              cases hd : it.damImageURL <;>
                simp [ProductDetail.getProductImageUrl, imageUrlSpec, externalUrlOf, refUrlOf,
                  he, hd, strTruthy]
            · simp [ProductDetail.getProductImageUrl, imageUrlSpec, externalUrlOf, refUrlOf,
                he, hu, strTruthy]

/-- C6: both blocks' image URL resolution agrees with the spec's
description — legacy schema: the single image field's author/publish
sub-field, null when absent; current schema: the external image URL when
present (string directly, else plaintext wrapper), else the DAM image's
author/publish sub-field, else null — and a null result renders no image
element. -/
theorem image_url_resolution (item : Option Product) (isAuthor isLegacy : Bool) :
    Cart.getProductImageUrl item isAuthor isLegacy =
      imageUrlSpec item isAuthor isLegacy ∧
    ProductDetail.getProductImageUrl item isAuthor isLegacy =
      imageUrlSpec item isAuthor isLegacy ∧
    rendersImageElement none = false :=
  ⟨cart_image_eq_spec item isAuthor isLegacy,
   pd_image_eq_spec item isAuthor isLegacy, rfl⟩

theorem splitOnChar_ne_nil (sep : Char) (cs : List Char) : splitOnChar sep cs ≠ [] := by
  induction cs with
  | nil => simp [splitOnChar]
  | cons c rest ih =>
    unfold splitOnChar
    by_cases hc : c = sep
    · simp [hc]
    · cases hr : splitOnChar sep rest with
      | nil => exact absurd hr ih
      | cons h t => simp [hc, hr]

theorem splitOnChar_headD (sep : Char) (cs : List Char) :
    (splitOnChar sep cs).headD [] = cs.takeWhile (fun c => c ≠ sep) := by
  induction cs with
  | nil => rfl
  | cons c rest ih =>
    unfold splitOnChar
    by_cases hc : c = sep
    · subst hc
      simp [List.takeWhile_cons]
    · cases hr : splitOnChar sep rest with
      | nil => exact absurd hr (splitOnChar_ne_nil sep rest)
      | cons h t =>
        rw [hr] at ih
        simp only [List.headD_cons] at ih
        simp [hc, List.takeWhile_cons, ih]

theorem jsSplitHead_comma (s : String) : jsSplitHead ',' s = beforeFirstComma s := by
  unfold jsSplitHead beforeFirstComma
  cases hr : splitOnChar ',' s.data with
  | nil => exact absurd hr (splitOnChar_ne_nil ',' s.data)
  | cons h t =>
    have hh := splitOnChar_headD ',' s.data
    rw [hr] at hh
    simp only [List.headD_cons] at hh
    simp [hh]

theorem jsOrSD_empty (u : Option String) : jsOrSD u "" = u.getD "" := by
  cases u with
  | none => rfl
  | some s => by_cases hs : s = "" <;> simp [jsOrSD, strTruthy, hs]

theorem cartWrite_merge_false (store : Option CartState) (productId : String)
    (q : QtyInput) :
    ((Cart.removeFromCart store productId).storeWrite.all (fun w => !w.merge)) = true ∧
    ((Cart.updateQuantity store productId q).storeWrite.all (fun w => !w.merge)) = true := by
  have hrem : ((Cart.removeFromCart store productId).storeWrite.all
      (fun w => !w.merge)) = true := by
    cases hfind : findItem (store.getD emptyCart).products productId with
    | none =>
      rw [removeFromCart_none_eq store productId hfind]
      rfl
    | some v =>
      rw [removeFromCart_some_eq store productId v hfind]
      rfl
  refine ⟨hrem, ?_⟩
  cases hlt : (parseQty q).ltInt 1 with
  | true => rw [updateQuantity_lt1_eq store productId q hlt]; exact hrem
  | false =>
    cases hfind : findItem (store.getD emptyCart).products productId with
    | none =>
      rw [updateQuantity_ge1_none_eq store productId q hlt hfind]
      rfl
    | some v =>
      rw [updateQuantity_ge1_some_eq store productId q v hlt hfind]
      rfl

/-- C10: `buildProductDetail` writes the derived product object to the
shared data layer under the `"product"` key with merge semantics — no
merge flag is passed, unlike the cart's `merge = false` writes — with `id`
falling back to `sku` (else `""`), `name` reduced to the trimmed text
before the first comma of the raw name (when that is nonempty), `price`
defaulting to `0` when falsy, and `image`/`thumbnail` set to the resolved
image URL or the empty string. -/
theorem buildProductDetail_write_shape (product : Product) (isAuthor isLegacy : Bool)
    (store : Option CartState) (productId : String) (q : QtyInput) (s : String)
    (hname : product.name = some s) (hs : s ≠ "")
    (hbc : jsTrim (beforeFirstComma s) ≠ "") :
    (ProductDetail.buildProductDetailWrite product isAuthor isLegacy).key = "product" ∧
    (ProductDetail.buildProductDetailWrite product isAuthor isLegacy).mergeFlag = none ∧
    effectiveMerge
      (ProductDetail.buildProductDetailWrite product isAuthor isLegacy).mergeFlag = true ∧
    ((Cart.removeFromCart store productId).storeWrite.all (fun w => !w.merge)) = true ∧
    ((Cart.updateQuantity store productId q).storeWrite.all (fun w => !w.merge)) = true ∧
    (ProductDetail.buildProductDetailWrite product isAuthor isLegacy).value.id =
      (if strTruthy product.id then product.id.getD ""
       else if strTruthy product.sku then product.sku.getD "" else "") ∧
    (ProductDetail.buildProductDetailWrite product isAuthor isLegacy).value.name =
      jsTrim (beforeFirstComma s) ∧
    (ProductDetail.buildProductDetailWrite product isAuthor isLegacy).value.price =
      (match product.price with
       | some pr => if pr.truthy then pr else JSNum.num 0
       | none => JSNum.num 0) ∧
    (ProductDetail.buildProductDetailWrite product isAuthor isLegacy).value.image =
      (ProductDetail.getProductImageUrl (some product) isAuthor isLegacy).getD "" ∧
    (ProductDetail.buildProductDetailWrite product isAuthor isLegacy).value.thumbnail =
      (ProductDetail.getProductImageUrl (some product) isAuthor isLegacy).getD "" := by
  have hw := cartWrite_merge_false store productId q
  refine ⟨rfl, rfl, rfl, hw.1, hw.2, ?_, ?_, rfl, ?_, ?_⟩
  · show jsOrSD (jsOrS product.id product.sku) "" = _
    cases hid : product.id with
    | some v =>
      by_cases hv : v = ""
      · subst hv
        cases hsku : product.sku with
        | some w => by_cases hw : w = "" <;> simp [jsOrS, jsOrSD, strTruthy, hw]
        | none => simp [jsOrS, jsOrSD, strTruthy]
      · simp [jsOrS, jsOrSD, strTruthy, hv]
    | none =>
      cases hsku : product.sku with
      | some w => by_cases hw : w = "" <;> simp [jsOrS, jsOrSD, strTruthy, hw]
      | none => simp [jsOrS, jsOrSD, strTruthy]
  · show jsOrSD (jsOrS (some (ProductDetail.displayNameOf product.name))
      product.name) "" = _
    have hdn : ProductDetail.displayNameOf product.name = jsTrim (beforeFirstComma s) := by
      unfold ProductDetail.displayNameOf
      rw [hname]
      have ht : strTruthy (some s) = true := by simpa [strTruthy] using hs
      rw [ht]
      simp only [if_true, Option.getD_some]
      rw [jsSplitHead_comma]
    rw [hdn]
    have htr : strTruthy (some (jsTrim (beforeFirstComma s))) = true := by
      simpa [strTruthy] using hbc
    simp [jsOrS, jsOrSD, htr]
  · show jsOrSD (ProductDetail.getProductImageUrl (some product) isAuthor isLegacy) "" = _
    exact jsOrSD_empty _
  · show jsOrSD (ProductDetail.getProductImageUrl (some product) isAuthor isLegacy) "" = _
    exact jsOrSD_empty _

/-- Witness for C10 at a concrete input: the sample product (name
`"Alpine Boots, waterproof"`, no `id`, sku `"sku-9"`), the empty store and
quantity 2. -/
theorem buildProductDetail_write_shape_witness :
    (ProductDetail.buildProductDetailWrite sampleProduct true false).key = "product" ∧
    (ProductDetail.buildProductDetailWrite sampleProduct true false).mergeFlag = none ∧
    effectiveMerge
      (ProductDetail.buildProductDetailWrite sampleProduct true false).mergeFlag = true ∧
    ((Cart.removeFromCart none "missing-2").storeWrite.all (fun w => !w.merge)) = true ∧
    ((Cart.updateQuantity none "missing-2" (.num (.num 2))).storeWrite.all
      (fun w => !w.merge)) = true ∧
    (ProductDetail.buildProductDetailWrite sampleProduct true false).value.id =
      (if strTruthy sampleProduct.id then sampleProduct.id.getD ""
       else if strTruthy sampleProduct.sku then sampleProduct.sku.getD "" else "") ∧
    (ProductDetail.buildProductDetailWrite sampleProduct true false).value.name =
      jsTrim (beforeFirstComma "Alpine Boots, waterproof") ∧
    (ProductDetail.buildProductDetailWrite sampleProduct true false).value.price =
      (match sampleProduct.price with
       | some pr => if pr.truthy then pr else JSNum.num 0
       | none => JSNum.num 0) ∧
    (ProductDetail.buildProductDetailWrite sampleProduct true false).value.image =
      (ProductDetail.getProductImageUrl (some sampleProduct) true false).getD "" ∧
    (ProductDetail.buildProductDetailWrite sampleProduct true false).value.thumbnail =
      (ProductDetail.getProductImageUrl (some sampleProduct) true false).getD "" :=
  buildProductDetail_write_shape sampleProduct true false none "missing-2"
    (.num (.num 2)) "Alpine Boots, waterproof" rfl (by decide) (by decide)

theorem all_bne_eq_not_contains (ids : List String) (pid : String) :
    ids.all (fun k => pid != k) = !ids.contains pid := by
  cases hc : ids.contains pid with
  | true =>
    have hm : pid ∈ ids := by simpa using hc
    simp only [Bool.not_true]
    refine Bool.eq_false_iff.mpr ?_
    intro hall
    have hpid := List.all_eq_true.mp hall pid hm
    simp at hpid
  | false =>
    have hm : pid ∉ ids := by simpa using hc
    simp only [Bool.not_false]
    apply List.all_eq_true.mpr
    intro k hk
    have hne : pid ≠ k := fun he => hm (he ▸ hk)
    simpa using hne

theorem empty_not_in_lineItemCats (item : LineItem) : "" ∉ lineItemCats item := by
  intro h
  cases hcat : item.category with
  | none => simp [lineItemCats, hcat] at h
  | some s =>
    simp only [lineItemCats, hcat] at h
    by_cases hs : (s != "") = true
    · rw [if_pos hs] at h
      have hne := (List.mem_filter.mp h).2
      simp at hne
    · rw [if_neg hs] at h
      simp at h

theorem cartCategoriesOf_not_contains_empty (c : CartState) :
    (cartCategoriesOf c).contains "" = false := by
  cases hc : (cartCategoriesOf c).contains "" with
  | false => rfl
  | true =>
    exfalso
    have hmem : "" ∈ cartCategoriesOf c := by simpa using hc
    unfold cartCategoriesOf at hmem
    rcases List.mem_flatMap.mp hmem with ⟨p, _, hin⟩
    exact empty_not_in_lineItemCats p.2 hin

theorem any_filter_ne_empty (cats : List String) (f : String → Bool) (hf : f "" = false) :
    (cats.filter (fun c => c ≠ "")).any f = cats.any f := by
  induction cats with
  | nil => rfl
  | cons a t ih =>
    rw [List.filter_cons]
    by_cases ha : a = ""
    · subst ha
      rw [if_neg (by simp), ih, List.any_cons, hf]
      simp
    · rw [if_pos (by simpa using ha), List.any_cons, List.any_cons, ih]

theorem filtered_any_contains_comm (cur prod : List String) :
    ((cur.filter (fun c => c ≠ "")).any
      (fun c => ((prod.filter (fun c => c ≠ "")).contains c)))
    = prod.any (fun c => c != "" && cur.contains c) := by
  rw [Bool.eq_iff_iff]
  constructor
  · intro h
    rcases List.any_eq_true.mp h with ⟨c, hc, hcc⟩
    rcases List.mem_filter.mp hc with ⟨hcur, hcne⟩
    have hprod : c ∈ prod.filter (fun c => decide (c ≠ "")) := by simpa using hcc
    rcases List.mem_filter.mp hprod with ⟨hp, _⟩
    refine List.any_eq_true.mpr ⟨c, hp, ?_⟩
    have hne : c ≠ "" := by simpa using hcne
    simp [hne, hcur]
  · intro h
    rcases List.any_eq_true.mp h with ⟨c, hc, hcc⟩
    have hcc' : c ≠ "" ∧ c ∈ cur := by simpa using hcc
    refine List.any_eq_true.mpr
      ⟨c, List.mem_filter.mpr ⟨hcc'.2, by simpa using hcc'.1⟩, ?_⟩
    simp only [List.contains_iff_exists_mem_beq]
    exact ⟨c, List.mem_filter.mpr ⟨hc, by simpa using hcc'.1⟩, by simp⟩

theorem cart_buildRecommendations_eq_spec (allProducts : List Product)
    (cartData : CartState) :
    Cart.buildRecommendations allProducts cartData =
      (if ((allProducts.filter (recCandidateSpecCart cartData)).take 5).isEmpty
       then none
       else some ((allProducts.filter (recCandidateSpecCart cartData)).take 5)) := by
  have hpred : ∀ product ∈ allProducts,
      (if (cartData.products.map (fun p => p.1)).contains (skuOrIdStr product)
       then false
       else (((product.category.getD []).map Cart.normalizeProductCat).filter
         (fun c => c ≠ "")).any (fun c => (cartCategoriesOf cartData).contains c))
      = recCandidateSpecCart cartData product := by
    intro product _
    unfold recCandidateSpecCart
    rw [all_bne_eq_not_contains,
      any_filter_ne_empty _ _ (cartCategoriesOf_not_contains_empty cartData)]
    cases hc : (cartData.products.map (fun p => p.1)).contains (skuOrIdStr product) with
    | true => simp
    | false =>
      simp only [Bool.false_eq_true, if_false, Bool.not_false, Bool.true_and]
  simp only [Cart.buildRecommendations]
  rw [List.filter_congr hpred]

theorem pd_buildRecommendations_eq_spec (currentProduct : Product)
    (allProducts : List Product) :
    ProductDetail.buildRecommendations currentProduct allProducts =
      (if ((allProducts.filter (recCandidateSpecPD currentProduct)).take 5).isEmpty
       then none
       else some ((allProducts.filter (recCandidateSpecPD currentProduct)).take 5)) := by
  cases hcat : currentProduct.category.getD [] with
  | nil =>
    have hfil : allProducts.filter (recCandidateSpecPD currentProduct) = [] := by
      apply List.filter_eq_nil_iff.mpr
      intro p _
      unfold recCandidateSpecPD
      rw [hcat]
      simp
    simp only [ProductDetail.buildRecommendations, hcat, hfil]
    rfl
  | cons c0 cs =>
    have hpred : ∀ product ∈ allProducts,
        (if jsOrS product.sku product.id ==
            jsOrS currentProduct.sku currentProduct.id
         then false
         else (((currentProduct.category.getD []).map
             ProductDetail.normalizeCat).filter (fun c => c ≠ "")).any
           (fun c => (((product.category.getD []).map
             ProductDetail.normalizeCat).filter (fun c => c ≠ "")).contains c))
        = recCandidateSpecPD currentProduct product := by
      intro product _
      unfold recCandidateSpecPD
      rw [filtered_any_contains_comm]
      cases he : (jsOrS product.sku product.id ==
          jsOrS currentProduct.sku currentProduct.id) <;> simp [he]
    simp only [ProductDetail.buildRecommendations, hcat]
    rw [← hcat, List.filter_congr hpred]
    rw [hcat]
    rfl

/-- C2: both recommendation builders return exactly the first at-most-5
candidates, in source-list order, whose sku-or-id differs from every
product already in the cart (respectively from the current product) and
that share at least one nonempty normalized category with the target
category set; when no candidate passes they return `null`, and the shared
caller pattern appends no recommendations section for a `null` result. -/
theorem recommendations_filter_shape (allProducts : List Product)
    (cartData : CartState) (currentProduct : Product) (children : List ViewNode) :
    Cart.buildRecommendations allProducts cartData =
      (if ((allProducts.filter (recCandidateSpecCart cartData)).take 5).isEmpty
       then none
       else some ((allProducts.filter (recCandidateSpecCart cartData)).take 5)) ∧
    ProductDetail.buildRecommendations currentProduct allProducts =
      (if ((allProducts.filter (recCandidateSpecPD currentProduct)).take 5).isEmpty
       then none
       else some ((allProducts.filter (recCandidateSpecPD currentProduct)).take 5)) ∧
    appendRecommendations children none = children :=
  ⟨cart_buildRecommendations_eq_spec allProducts cartData,
   pd_buildRecommendations_eq_spec currentProduct allProducts, rfl⟩

end Luma
